import Mathlib

/-! # SumoLogic Terraform provider: sources

A shallow embedding of `sumologic/sumologic_sources.go` and
`sumologic/resource_sumologic_cloudsyslog_source.go`, followed by theorems about the path
that imports a resource, the lookup-by-name create path, the read and delete paths and the
mapping layer between resource state and the `Source` record.

Conventions of the embedding.

* A Go `string` is a Lean `String`.  The only byte-level operations the code performs are a
  split on the one-byte separator `"/"` and decimal parsing; both treat every byte of a
  multi-byte UTF-8 sequence as an ordinary non-separator, non-digit byte, so working on
  characters gives the same result.
* A Go `int` is a Lean `Int`; the one place where the width matters is `strconv.Atoi`, which
  saturates at the bounds of a 64-bit `int`.
* A Go `error` is `Option Error` (`none` is `nil`), and a pointer or interface value that
  may be `nil` is an `Option`.
* A function that can panic returns an `Option`, `none` being the panic.
* `*schema.ResourceData` is a record with one typed field per schema entry; `d.Get(k)` reads
  the field, `d.Set(k, v)` stores a scalar `v` in it (what it does with a slice of records
  is spelled out at `setRecordList`), `d.Id()` / `d.SetId` read and write `id`.
  Functions that mutate `d` return the new record.
* The REST client is a family of response functions.  The response to a call may depend on
  every call issued before it, which is recorded in a log of calls.
-/

namespace Sumologic

/-! ## Go standard library: `strings.Split`, `strconv.Atoi`, `strconv.Itoa` -/

/-- Go errors, represented by their message. -/
abbrev Error := String

/-- Go `[]byte`. -/
abbrev Bytes := List Nat

/-- Splitting a list of characters around every occurrence of `sep`. -/
def splitChars (sep : Char) : List Char → List (List Char)
  | [] => [[]]
  | c :: cs =>
    if c = sep then [] :: splitChars sep cs
    else
      match splitChars sep cs with
      | [] => [[c]]
      | p :: ps => (c :: p) :: ps

/-- Go `strings.Split(s, sep)` for a one-character separator: the substrings between the
occurrences of `sep`; a string without `sep` (the empty one included) gives one part. -/
def Split (s : String) (sep : Char) : List String :=
  (splitChars sep s.toList).map String.mk

/-- Width of the Go `int` type (`strconv.IntSize`) on 64-bit platforms. -/
def intSize : Nat := 64

/-- Largest value of a Go `int`. -/
def maxInt : Int := 2 ^ (intSize - 1) - 1

/-- Smallest value of a Go `int`. -/
def minInt : Int := -(2 ^ (intSize - 1))

/-- Largest value of a Go `uint64`. -/
def maxUint64 : Nat := 2 ^ 64 - 1

/-- The error `strconv.ErrSyntax`; only the kind of a parse error is kept, not the text
that quotes the input around it. -/
def errSyntax : Error := "invalid syntax"

/-- The error `strconv.ErrRange`. -/
def errRange : Error := "value out of range"

/-- The scanning loop of Go `strconv.ParseUint(s, 10, 64)` with the value `n` read so far:
a byte that is not a decimal digit ends the scan with a syntax error and the value 0; as
soon as the value would pass the largest `uint64` the scan ends with a range error and that
largest value, whatever follows. -/
def parseUintLoop : List Char → Nat → Nat × Option Error
  | [], n => (n, none)
  | c :: cs, n =>
    if !c.isDigit then (0, some errSyntax)
    else if n ≥ maxUint64 / 10 + 1 then (maxUint64, some errRange)
    else
      let n1 := n * 10 + (c.toNat - 48)
      if n1 > maxUint64 then (maxUint64, some errRange)
      else parseUintLoop cs n1

/-- Go `strconv.ParseUint(s, 10, 64)`: the empty string is a syntax error. -/
def ParseUint (cs : List Char) : Nat × Option Error :=
  if cs.isEmpty then (0, some errSyntax) else parseUintLoop cs 0

/-- Go `strconv.ParseInt(s, 10, 0)` after the sign has been taken off: a syntax error gives
0; a magnitude that does not fit an `int` (a range error of `ParseUint` included) gives the
nearest bound of `int` together with a range error. -/
def parseIntSigned (neg : Bool) (cs : List Char) : Int × Option Error :=
  match ParseUint cs with
  | (un, err) =>
    if err = some errSyntax then (0, err)
    else if !neg && (un : Int) ≥ 2 ^ (intSize - 1) then (maxInt, some errRange)
    else if neg && (un : Int) > 2 ^ (intSize - 1) then (minInt, some errRange)
    else (if neg then -(un : Int) else (un : Int), none)

/-- Go `strconv.Atoi`: an optional sign followed by decimal digits.  The fast path that
`Atoi` takes on short strings computes the same pair as `ParseInt`, which is what is spelled
out here. -/
def Atoi (s : String) : Int × Option Error :=
  match s.toList with
  | [] => (0, some errSyntax)
  | '+' :: cs => parseIntSigned false cs
  | '-' :: cs => parseIntSigned true cs
  | cs => parseIntSigned false cs

/-- Go `strconv.Itoa` (and the `%d` verb of `fmt.Sprintf`): the decimal text of an `int`. -/
def Itoa (i : Int) : String :=
  match i with
  | Int.ofNat n => Nat.repr n
  | Int.negSucc n => "-" ++ Nat.repr (n + 1)

/-! ## Data model (`sumologic_sources.go`, lines 13-46) -/

/-- One custom date-parsing rule. -/
structure DefaultDateFormat where
  Format : String
  Locator : String
  deriving DecidableEq, Repr

/-- One content filter. -/
structure Filter where
  Name : String
  FilterType : String
  Regexp : String
  Mask : String
  deriving DecidableEq, Repr

/-- The `Source` record; the Go field `Type` is called `SourceType` here. -/
structure Source where
  ID : Int := 0
  SourceType : String := ""
  Name : String := ""
  Description : String := ""
  Category : String := ""
  HostName : String := ""
  TimeZone : String := ""
  AutomaticDateParsing : Bool := false
  MultilineProcessingEnabled : Bool := false
  UseAutolineMatching : Bool := false
  ManualPrefixRegexp : String := ""
  ForceTimeZone : Bool := false
  DefaultDateFormats : List DefaultDateFormat := []
  Filters : List Filter := []
  CutoffTimestamp : Int := 0
  CutoffRelativeTime : String := ""
  deriving DecidableEq, Repr

/-- The list response of `collectors/<id>/sources`. -/
structure SourceList where
  Sources : List Source
  deriving DecidableEq, Repr

/-- Modelled from the spec: the declaration of `CloudSyslogSource` is not among the source
files; it is a `Source` together with a server-assigned, read-only `Token`. -/
structure CloudSyslogSource where
  Source : Source
  Token : String := ""
  deriving DecidableEq, Repr

/-! ## Resource state (`resourceSumologicSource`, lines 48-185) -/

/-- One `default_date_formats` block as a `map[string]interface{}`: the keys `format` and
`locator`, both strings. -/
structure DateFormatBlock where
  format : String
  locator : String
  deriving DecidableEq, Repr

/-- One `filters` block as a `map[string]interface{}`: the keys `name`, `filter_type`,
`regexp` and `mask`, all strings. -/
structure FilterBlock where
  name : String
  filter_type : String
  regexp : String
  mask : String
  deriving DecidableEq, Repr

/-- The resource state: the identity and one field per schema entry, with the defaults the
schema declares (`name` and `collector_id` are required and have none; `token` is the
computed field the cloud-syslog resource adds).  The two list fields hold what
`d.Get(k).([]interface{})` hands out: one `interface{}` per block, which is the block's map
or, for a block all of whose values are empty, `nil` (`none`). -/
structure ResourceData where
  id : String := ""
  name : String
  description : String := ""
  category : String := ""
  host_name : String := ""
  timezone : String := "Etc/UTC"
  automatic_date_parsing : Bool := true
  multiline_processing_enabled : Bool := true
  use_autoline_matching : Bool := true
  manual_prefix_regexp : String := ""
  force_timezone : Bool := false
  default_date_formats : List (Option DateFormatBlock) := []
  filters : List (Option FilterBlock) := []
  cutoff_timestamp : Int := 0
  cutoff_relative_time : String := ""
  collector_id : Int
  lookup_by_name : Bool := false
  destroy : Bool := true
  token : String := ""
  deriving DecidableEq, Repr

/-- The method `d.SetId`. -/
def ResourceData.SetId (d : ResourceData) (v : String) : ResourceData :=
  { d with id := v }

/-- The loop of `validation.StringInSlice`: whether some element of `valid` equals `v`, or
equals it up to case when `ignoreCase` is set. -/
def stringInSliceLoop (ignoreCase : Bool) (v : String) : List String → Bool
  | [] => false
  | str :: rest =>
    if v = str || (ignoreCase && v.toLower = str.toLower) then true
    else stringInSliceLoop ignoreCase v rest

/-- Go `validation.StringInSlice(valid, ignoreCase)` applied to the string `v` under the key
`k`: the pair of warnings and errors.  The value passes when the loop over `valid` finds it;
otherwise one error is reported. -/
def StringInSlice (valid : List String) (ignoreCase : Bool) (v : String) (k : String) :
    List String × List Error :=
  if stringInSliceLoop ignoreCase v valid then ([], [])
  else ([], ["expected " ++ k ++ " to be one of [" ++ " ".intercalate valid ++ "], got " ++ v])

/-- The `ValidateFunc` declared on `filters.*.filter_type` (line 141). -/
def filterTypeValidateFunc (v : String) (k : String) : List String × List Error :=
  StringInSlice ["Exclude", "Include", "Hash", "Mask", "Forward"] false v k

/-! ## The REST client -/

/-- The remote calls the operations can issue. -/
inductive Call where
  | get (url : String)
  | delete (url : String)
  | createCloudsyslogSource (source : CloudSyslogSource) (collectorID : Int)
  | updateCloudSyslogSource (source : CloudSyslogSource) (collectorID : Int)
  | getCloudSyslogSource (collectorID : Int) (sourceID : Int)
  deriving DecidableEq, Repr

/-- Whether a call is a `CreateCloudsyslogSource`. -/
def Call.isCreate : Call → Bool
  | Call.createCloudsyslogSource _ _ => true
  | _ => false

/-- The REST client, consumed as a capability.  Every method receives the log of the calls
issued so far, so that a response may depend on the whole history.  `Get` returns the body
(`none` for a `nil` slice) and the error, `Delete` the error; the per-subtype accessors are
not among the source files and are taken as they are called.  `jsonUnmarshal` stands for
`json.Unmarshal` into a `SourceList`. -/
structure Client where
  Get : List Call → String → Option Bytes × Option Error
  Delete : List Call → String → Option Error
  CreateCloudsyslogSource : List Call → CloudSyslogSource → Int → Int × Option Error
  UpdateCloudSyslogSource : List Call → CloudSyslogSource → Int → Option Error
  GetCloudSyslogSource : List Call → Int → Int → Option CloudSyslogSource × Option Error
  jsonUnmarshal : Bytes → SourceList × Option Error

/-- What an operation leaves behind: the returned error, the resource state and the log. -/
structure Outcome where
  err : Option Error
  d : ResourceData
  log : List Call
  deriving DecidableEq, Repr

/-! ## Operations of `sumologic_sources.go` -/

/-- The method `Client.DestroySource` (lines 289-294): one `DELETE`, whose error is returned. -/
def DestroySource (c : Client) (log : List Call) (sourceID : Int) (collectorID : Int) :
    Option Error × List Call :=
  let url := "collectors/" ++ Itoa collectorID ++ "/sources/" ++ Itoa sourceID
  (c.Delete log url, log ++ [Call.delete url])

/-- The function `resourceSumologicSourceDelete` (lines 187-198). -/
def resourceSumologicSourceDelete (c : Client) (d : ResourceData) (log : List Call) :
    Outcome :=
  if d.destroy then
    let id := (Atoi d.id).1
    let collectorID := d.collector_id
    let r := DestroySource c log id collectorID
    { err := r.1, d := d, log := r.2 }
  else
    { err := none, d := d, log := log }

/-- The function `resourceSumologicSourceImport` (lines 200-213): the returned slice (empty
for `nil`) and the error. -/
def resourceSumologicSourceImport (d : ResourceData) : List ResourceData × Option Error :=
  match Split d.id '/' with
  | [ids0, ids1] =>
    let d1 := d.SetId ids1
    let collectorID := (Atoi ids0).1
    let d2 := { d1 with collector_id := collectorID }
    ([d2], none)
  | _ => ([], some ("expected collector_id/source_id, got " ++ d.id))

/-- The loop of `getDefaultDateFormats` (lines 260-266) on the blocks still to visit and the
slice built so far.  The assertion `rawConfig.(map[string]interface{})` of line 261 is
unchecked, so a `nil` block panics; `none` is the panic. -/
def defaultDateFormatsLoop :
    List (Option DateFormatBlock) → List DefaultDateFormat → Option (List DefaultDateFormat)
  | [], defaultDateDormats => some defaultDateDormats
  | none :: _, _ => none
  | some config :: rest, defaultDateDormats =>
    defaultDateFormatsLoop rest
      (defaultDateDormats ++ [{ Format := config.format, Locator := config.locator }])

/-- The function `getDefaultDateFormats` (lines 255-269): the loop appends one record per raw
block to a slice that starts out `nil`; `none` when the loop panics. -/
def getDefaultDateFormats (d : ResourceData) : Option (List DefaultDateFormat) :=
  defaultDateFormatsLoop d.default_date_formats []

/-- The loop of `getFilters` (lines 276-284) on the blocks still to visit and the slice built
so far.  The assertion `rawConfig.(map[string]interface{})` of line 277 is unchecked, so a
`nil` block panics; `none` is the panic. -/
def filtersLoop : List (Option FilterBlock) → List Filter → Option (List Filter)
  | [], filters => some filters
  | none :: _, _ => none
  | some config :: rest, filters =>
    filtersLoop rest
      (filters ++ [{ Name := config.name, FilterType := config.filter_type,
                     Regexp := config.regexp, Mask := config.mask }])

/-- The function `getFilters` (lines 271-287): the loop appends one record per raw block to
a slice that starts out `nil`; `none` when the loop panics. -/
def getFilters (d : ResourceData) : Option (List Filter) :=
  filtersLoop d.filters []

/-- The function `resourceToSource` (lines 215-236); it panics (`none`) when one of the two
list readers does. -/
def resourceToSource (d : ResourceData) : Option Source :=
  let id := (Atoi d.id).1
  match getDefaultDateFormats d with
  | none => none
  | some defaultDateFormats =>
    match getFilters d with
    | none => none
    | some filters =>
      some
        { ID := id
          Name := d.name
          Description := d.description
          Category := d.category
          HostName := d.host_name
          TimeZone := d.timezone
          AutomaticDateParsing := d.automatic_date_parsing
          MultilineProcessingEnabled := d.multiline_processing_enabled
          UseAutolineMatching := d.use_autoline_matching
          ManualPrefixRegexp := d.manual_prefix_regexp
          ForceTimeZone := d.force_timezone
          DefaultDateFormats := defaultDateFormats
          Filters := filters
          CutoffTimestamp := d.cutoff_timestamp
          CutoffRelativeTime := d.cutoff_relative_time }

/-- What `d.Set(k, v)` leaves in a list-of-blocks field that held `old`, for a Go slice `v`
of records, as the schema library performs the write.  The library decodes each record into
a map keyed by the record's Go field names, which are not keys of the block's schema, so the
write of a non-empty slice fails: nothing is stored, the field keeps the blocks it had, and
the error `d.Set` returns is discarded (lines 249-250).  An empty slice is written as the
empty list. -/
def setRecordList {α β : Type} (old : List β) (v : List α) : List β :=
  match v with
  | [] => []
  | _ :: _ => old

/-- The function `resourceSumologicSourceRead` (lines 238-253): fourteen `d.Set` calls. -/
def resourceSumologicSourceRead (d : ResourceData) (source : Source) : ResourceData :=
  { d with
    name := source.Name
    description := source.Description
    category := source.Category
    host_name := source.HostName
    timezone := source.TimeZone
    automatic_date_parsing := source.AutomaticDateParsing
    multiline_processing_enabled := source.MultilineProcessingEnabled
    use_autoline_matching := source.UseAutolineMatching
    manual_prefix_regexp := source.ManualPrefixRegexp
    force_timezone := source.ForceTimeZone
    default_date_formats := setRecordList d.default_date_formats source.DefaultDateFormats
    filters := setRecordList d.filters source.Filters
    cutoff_timestamp := source.CutoffTimestamp
    cutoff_relative_time := source.CutoffRelativeTime }

/-- The loop of `GetSourceName` (lines 317-321): the first source whose name is
`sourceName`. -/
def firstNamed (sourceName : String) : List Source → Option Source
  | [] => none
  | source :: rest =>
    if source.Name = sourceName then some source else firstNamed sourceName rest

/-- The method `Client.GetSourceName` (lines 296-324): one `GET` of the collector's source
list, deserialization, and a linear scan for the name. -/
def GetSourceName (c : Client) (log : List Call) (collectorID : Int) (sourceName : String) :
    (Option Source × Option Error) × List Call :=
  let url := "collectors/" ++ Itoa collectorID ++ "/sources"
  let log1 := log ++ [Call.get url]
  match c.Get log url with
  | (_, some err) => ((none, some err), log1)
  | (none, none) => ((none, none), log1)
  | (some data, none) =>
    match c.jsonUnmarshal data with
    | (_, some err) => ((none, some err), log1)
    | (response, none) => ((firstNamed sourceName response.Sources, none), log1)

/-! ## Operations of `resource_sumologic_cloudsyslog_source.go` -/

/-- The function `resourceToCloudSyslogSource` (lines 68-77); it panics (`none`) when
`resourceToSource` does. -/
def resourceToCloudSyslogSource (d : ResourceData) : Option CloudSyslogSource :=
  match resourceToSource d with
  | none => none
  | some source0 =>
    let source := { source0 with SourceType := "Cloudsyslog" }
    some { Source := source }

/-- The function `resourceSumologicCloudSyslogSourceRead` (lines 79-99); the warning written
with `log.Printf` on the not-found path is not part of the state and is left out. -/
def resourceSumologicCloudSyslogSourceRead (c : Client) (d : ResourceData)
    (log : List Call) : Outcome :=
  let id := (Atoi d.id).1
  let log1 := log ++ [Call.getCloudSyslogSource d.collector_id id]
  match c.GetCloudSyslogSource log d.collector_id id with
  | (_, some err) => { err := some err, d := d, log := log1 }
  | (none, none) => { err := none, d := d.SetId "", log := log1 }
  | (some source, none) =>
    let d1 := resourceSumologicSourceRead d source.Source
    { err := none, d := { d1 with token := source.Token }, log := log1 }

/-- The lookup step of `resourceSumologicCloudSyslogSourceCreate` (lines 27-37): with
`lookup_by_name` set, the collector's sources are searched for the resource's name and the
identity of a match is adopted. -/
def createLookup (c : Client) (d : ResourceData) (log : List Call) : Outcome :=
  if d.lookup_by_name then
    match GetSourceName c log d.collector_id d.name with
    | ((_, some err), log1) => { err := some err, d := d, log := log1 }
    | ((some source, none), log1) =>
      { err := none, d := d.SetId (Itoa source.ID), log := log1 }
    | ((none, none), log1) => { err := none, d := d, log := log1 }
  else
    { err := none, d := d, log := log }

/-- The create step of `resourceSumologicCloudSyslogSourceCreate` (lines 39-49): a source is
created only while the identity is empty; `none` when building the record panics, which
happens before any call is issued. -/
def createIfAbsent (c : Client) (d : ResourceData) (log : List Call) : Option Outcome :=
  if d.id = "" then
    match resourceToCloudSyslogSource d with
    | none => none
    | some source =>
      let log1 := log ++ [Call.createCloudsyslogSource source d.collector_id]
      match c.CreateCloudsyslogSource log source d.collector_id with
      | (_, some err) => some { err := some err, d := d, log := log1 }
      | (id, none) => some { err := none, d := d.SetId (Itoa id), log := log1 }
  else
    some { err := none, d := d, log := log }

/-- The function `resourceSumologicCloudSyslogSourceCreate` (lines 24-52): the lookup step,
the create step, then a read; the first error ends the operation, and so does a panic
(`none`). -/
def resourceSumologicCloudSyslogSourceCreate (c : Client) (d : ResourceData)
    (log : List Call) : Option Outcome :=
  match createLookup c d log with
  | { err := some err, d := d1, log := log1 } =>
    some { err := some err, d := d1, log := log1 }
  | { err := none, d := d1, log := log1 } =>
    match createIfAbsent c d1 log1 with
    | none => none
    | some { err := some err, d := d2, log := log2 } =>
      some { err := some err, d := d2, log := log2 }
    | some { err := none, d := d2, log := log2 } =>
      some (resourceSumologicCloudSyslogSourceRead c d2 log2)

/-- The function `resourceSumologicCloudSyslogSourceUpdate` (lines 54-66); `none` when
building the record panics. -/
def resourceSumologicCloudSyslogSourceUpdate (c : Client) (d : ResourceData)
    (log : List Call) : Option Outcome :=
  match resourceToCloudSyslogSource d with
  | none => none
  | some source =>
    let log1 := log ++ [Call.updateCloudSyslogSource source d.collector_id]
    match c.UpdateCloudSyslogSource log source d.collector_id with
    | some err => some { err := some err, d := d, log := log1 }
    | none => some (resourceSumologicCloudSyslogSourceRead c d log1)

/-! ## Two concrete clients, used to evaluate the operations -/

/-- A client whose collector lists three sources, two of them named `X`; the accessor of a
single source finds nothing, a create gives the identity 41 and a delete succeeds. -/
def listingClient : Client where
  Get := fun _ _ => (some [1], none)
  Delete := fun _ _ => none
  CreateCloudsyslogSource := fun _ _ _ => (41, none)
  UpdateCloudSyslogSource := fun _ _ _ => none
  GetCloudSyslogSource := fun _ _ _ => (none, none)
  jsonUnmarshal := fun _ =>
    (⟨[{ ID := 3, Name := "W" }, { ID := 7, Name := "X" }, { ID := 9, Name := "X" }]⟩, none)

/-- A client on which a create succeeds with the identity 41 and the read that follows
fails. -/
def failingReadClient : Client where
  Get := fun _ _ => (none, none)
  Delete := fun _ _ => none
  CreateCloudsyslogSource := fun _ _ _ => (41, none)
  UpdateCloudSyslogSource := fun _ _ _ => none
  GetCloudSyslogSource := fun _ _ _ => (none, some "timeout")
  jsonUnmarshal := fun _ => (⟨[]⟩, none)

/-! ## Facts about the library functions -/

theorem splitChars_ne_nil (sep : Char) (cs : List Char) : splitChars sep cs ≠ [] := by
  cases cs with
  | nil => simp [splitChars]
  | cons c cs =>
    unfold splitChars
    split
    · simp
    · split <;> simp

/-- The number of parts is one more than the number of separators. -/
theorem splitChars_length (sep : Char) (cs : List Char) :
    (splitChars sep cs).length = cs.count sep + 1 := by
  induction cs with
  | nil => simp [splitChars]
  | cons c cs ih =>
    unfold splitChars
    by_cases h : c = sep
    · subst h
      simp [ih]
    · have hne : (c == sep) = false := by simpa using h
      rw [if_neg h, List.count_cons, hne]
      cases hs : splitChars sep cs with
      | nil => exact absurd hs (splitChars_ne_nil sep cs)
      | cons p ps =>
        rw [hs] at ih
        simpa using ih

theorem splitChars_of_not_mem (sep : Char) (cs : List Char) (h : sep ∉ cs) :
    splitChars sep cs = [cs] := by
  induction cs with
  | nil => rfl
  | cons c cs ih =>
    have hc : c ≠ sep := fun e => h (by simp [e])
    have hcs : sep ∉ cs := fun e => h (List.mem_cons_of_mem _ e)
    unfold splitChars
    rw [if_neg hc, ih hcs]

theorem splitChars_append (sep : Char) (a b : List Char) (h : sep ∉ a) :
    splitChars sep (a ++ sep :: b) = a :: splitChars sep b := by
  induction a with
  | nil => simp [splitChars]
  | cons c cs ih =>
    have hc : c ≠ sep := fun e => h (by simp [e])
    have hcs : sep ∉ cs := fun e => h (List.mem_cons_of_mem _ e)
    rw [List.cons_append, splitChars, if_neg hc, ih hcs]

theorem Split_length (s : String) (sep : Char) :
    (Split s sep).length = s.toList.count sep + 1 := by
  simp [Split, splitChars_length]

theorem digitChar_isDigit (k : Nat) (h : k < 10) : (Nat.digitChar k).isDigit = true := by
  interval_cases k <;> decide

theorem digitChar_toNat (k : Nat) (h : k < 10) : (Nat.digitChar k).toNat - 48 = k := by
  interval_cases k <;> decide

theorem toDigitsCore_isDigit (fuel : Nat) : ∀ (n : Nat) (ds : List Char),
    (∀ ch ∈ ds, ch.isDigit = true) →
    ∀ ch ∈ Nat.toDigitsCore 10 fuel n ds, ch.isDigit = true := by
  induction fuel with
  | zero => intro n ds hds; simpa [Nat.toDigitsCore] using hds
  | succ fuel ih =>
    intro n ds hds
    have hd : (Nat.digitChar (n % 10)).isDigit = true :=
      digitChar_isDigit _ (Nat.mod_lt _ (by decide))
    have hds1 : ∀ ch ∈ Nat.digitChar (n % 10) :: ds, ch.isDigit = true := by
      intro ch hch
      rcases List.mem_cons.mp hch with e | e
      · rw [e]; exact hd
      · exact hds ch e
    simp only [Nat.toDigitsCore]
    split
    · exact hds1
    · exact ih _ _ hds1

theorem toDigitsCore_ne_nil (fuel : Nat) : ∀ (n : Nat) (ds : List Char),
    Nat.toDigitsCore 10 (fuel + 1) n ds ≠ [] := by
  induction fuel with
  | zero =>
    intro n ds
    simp only [Nat.toDigitsCore]
    split <;> simp
  | succ fuel ih =>
    intro n ds
    rw [Nat.toDigitsCore]
    split
    · simp
    · exact ih _ _

theorem foldl_digit_toDigitsCore (fuel : Nat) : ∀ (n : Nat) (ds : List Char), n < fuel →
    (Nat.toDigitsCore 10 fuel n ds).foldl (fun n ch => n * 10 + (ch.toNat - 48)) 0
      = ds.foldl (fun n ch => n * 10 + (ch.toNat - 48)) n := by
  induction fuel with
  | zero => intro n ds h; omega
  | succ fuel ih =>
    intro n ds h
    have hd : (Nat.digitChar (n % 10)).toNat - 48 = n % 10 :=
      digitChar_toNat _ (Nat.mod_lt _ (by decide))
    simp only [Nat.toDigitsCore]
    split
    · rename_i h0
      simp only [List.foldl_cons, hd]
      have : n % 10 = n := by omega
      rw [this]; simp
    · rename_i h0
      rw [ih (n / 10) _ (by omega)]
      simp only [List.foldl_cons, hd]
      have : n / 10 * 10 + n % 10 = n := by omega
      rw [this]

theorem toDigits_isDigit (n : Nat) : ∀ ch ∈ Nat.toDigits 10 n, ch.isDigit = true :=
  toDigitsCore_isDigit (n + 1) n [] (by simp)

theorem toDigits_ne_nil (n : Nat) : Nat.toDigits 10 n ≠ [] :=
  toDigitsCore_ne_nil n n []

theorem foldl_digit_toDigits (n : Nat) :
    (Nat.toDigits 10 n).foldl (fun n ch => n * 10 + (ch.toNat - 48)) 0 = n := by
  unfold Nat.toDigits
  rw [foldl_digit_toDigitsCore (n + 1) n [] (by omega)]
  rfl

theorem repr_toList (n : Nat) : (Nat.repr n).toList = Nat.toDigits 10 n := rfl

/-- The decimal text of a natural number has no `/`. -/
theorem slash_not_mem_toDigits (n : Nat) : '/' ∉ Nat.toDigits 10 n := by
  intro h
  have := toDigits_isDigit n _ h
  exact absurd this (by decide)

theorem le_foldl_digit (cs : List Char) : ∀ n : Nat,
    n ≤ cs.foldl (fun n ch => n * 10 + (ch.toNat - 48)) n := by
  induction cs with
  | nil => intro n; exact Nat.le_refl n
  | cons c cs ih =>
    intro n
    simp only [List.foldl_cons]
    exact Nat.le_trans (by omega) (ih (n * 10 + (c.toNat - 48)))

/-- On a run of digits the scan gives the value of the run, or the range error once the value
passes the largest `uint64`. -/
theorem parseUintLoop_digits (cs : List Char) : ∀ n : Nat,
    (∀ ch ∈ cs, ch.isDigit = true) → n ≤ maxUint64 →
    parseUintLoop cs n
      = if cs.foldl (fun n ch => n * 10 + (ch.toNat - 48)) n ≤ maxUint64
        then (cs.foldl (fun n ch => n * 10 + (ch.toNat - 48)) n, none)
        else (maxUint64, some errRange) := by
  induction cs with
  | nil =>
    intro n _ hn
    simp [parseUintLoop, hn]
  | cons c cs ih =>
    intro n hd hn
    have hc : c.isDigit = true := hd c (by simp)
    have hcs : ∀ ch ∈ cs, ch.isDigit = true := fun ch h => hd ch (List.mem_cons_of_mem _ h)
    have hge := le_foldl_digit cs (n * 10 + (c.toNat - 48))
    have hmax : maxUint64 = 18446744073709551615 := by decide
    simp only [parseUintLoop, hc, List.foldl_cons]
    by_cases h1 : n ≥ maxUint64 / 10 + 1
    · have hbig : ¬ cs.foldl (fun n ch => n * 10 + (ch.toNat - 48)) (n * 10 + (c.toNat - 48))
          ≤ maxUint64 := by
        rw [hmax] at h1 ⊢
        omega
      simp [h1, hbig]
    · by_cases h2 : n * 10 + (c.toNat - 48) > maxUint64
      · have hbig : ¬ cs.foldl (fun n ch => n * 10 + (ch.toNat - 48))
            (n * 10 + (c.toNat - 48)) ≤ maxUint64 := by omega
        simp [h1, h2, hbig]
      · simp only [Bool.not_true, Bool.false_eq_true, if_false, h1, h2]
        exact ih _ hcs (by omega)

theorem ParseUint_toDigits (n : Nat) :
    ParseUint (Nat.toDigits 10 n)
      = if n ≤ maxUint64 then (n, none) else (maxUint64, some errRange) := by
  unfold ParseUint
  have h1 : (Nat.toDigits 10 n).isEmpty = false := by
    cases h : Nat.toDigits 10 n with
    | nil => exact absurd h (toDigits_ne_nil n)
    | cons _ _ => rfl
  have hv := foldl_digit_toDigits n
  rw [h1, parseUintLoop_digits _ 0 (toDigits_isDigit n) (Nat.zero_le _), hv]
  simp

theorem parseIntSigned_toDigits (n : Nat) :
    parseIntSigned false (Nat.toDigits 10 n)
      = if (n : Int) > maxInt then (maxInt, some errRange) else ((n : Int), none) := by
  have hmax : maxUint64 = 18446744073709551615 := by decide
  have hmi : maxInt = 9223372036854775807 := by decide
  have hp : (2 : Int) ^ (intSize - 1) = 9223372036854775808 := by decide
  unfold parseIntSigned
  rw [ParseUint_toDigits, hp, hmi]
  by_cases h : n ≤ maxUint64
  · rw [if_pos h]
    have hne : ¬ ((none : Option Error) = some errSyntax) := by simp
    simp only [hne, if_false, Bool.not_false, Bool.true_and, Bool.false_and,
      Bool.false_eq_true, decide_eq_true_eq]
    by_cases h2 : (n : Int) ≥ 9223372036854775808
    · rw [if_pos h2, if_pos (by omega)]
    · rw [if_neg h2, if_neg (by omega)]
  · rw [if_neg h]
    have hne : ¬ (some errRange = some errSyntax) := by decide
    have h2 : ((maxUint64 : Nat) : Int) ≥ 9223372036854775808 := by
      rw [hmax]; decide
    have h3 : (n : Int) > 9223372036854775807 := by
      rw [hmax] at h
      omega
    simp only [hne, if_false, Bool.not_false, Bool.true_and, decide_eq_true_eq]
    rw [if_pos h2, if_pos h3]

/-- Parsing the decimal text of a natural number: the number itself when it fits a Go `int`,
the largest `int` otherwise. -/
theorem Atoi_repr (n : Nat) :
    Atoi (Nat.repr n)
      = if (n : Int) > maxInt then (maxInt, some errRange) else ((n : Int), none) := by
  unfold Atoi
  rw [repr_toList]
  split
  · rename_i h
    exact absurd h (toDigits_ne_nil n)
  · rename_i cs h
    have := toDigits_isDigit n '+' (by rw [h]; simp)
    exact absurd this (by decide)
  · rename_i cs h
    have := toDigits_isDigit n '-' (by rw [h]; simp)
    exact absurd this (by decide)
  · exact parseIntSigned_toDigits n

/-- The text produced by `Itoa` is never empty. -/
theorem Itoa_ne_empty (i : Int) : Itoa i ≠ "" := by
  intro h
  have hl : (Itoa i).toList = [] := by rw [h]; rfl
  cases i with
  | ofNat n => exact toDigits_ne_nil n hl
  | negSucc n =>
    have : (Itoa (Int.negSucc n)).toList = '-' :: Nat.toDigits 10 (n + 1) := rfl
    rw [this] at hl
    exact absurd hl (by simp)

/-- Parsing undoes printing on the whole range of a Go `int`. -/
theorem Atoi_Itoa (i : Int) (hlo : minInt ≤ i) (hhi : i ≤ maxInt) :
    Atoi (Itoa i) = (i, none) := by
  have hmax : maxUint64 = 18446744073709551615 := by decide
  have hmin : minInt = -9223372036854775808 := by decide
  have hp : (2 : Int) ^ (intSize - 1) = 9223372036854775808 := by decide
  cases i with
  | ofNat n =>
    show Atoi (Nat.repr n) = _
    rw [Atoi_repr, if_neg (by simpa using hhi)]
    rfl
  | negSucc n =>
    have hl : (Itoa (Int.negSucc n)).toList = '-' :: Nat.toDigits 10 (n + 1) := rfl
    have hn : ((n + 1 : Nat) : Int) ≤ 9223372036854775808 := by
      rw [hmin, Int.negSucc_eq] at hlo
      push_cast
      omega
    unfold Atoi
    rw [hl]
    simp only []
    unfold parseIntSigned
    rw [ParseUint_toDigits, if_pos (by rw [hmax]; omega), hp]
    have hne : ¬ ((none : Option Error) = some errSyntax) := by simp
    simp only [hne, if_false, Bool.not_true, Bool.false_and, Bool.true_and,
      Bool.false_eq_true, decide_eq_true_eq, if_true]
    rw [if_neg (by omega), Int.negSucc_eq]
    push_cast
    rfl

/-! ## Import -/

theorem import_of_parts (d : ResourceData) (a b : String) (h : Split d.id '/' = [a, b]) :
    resourceSumologicSourceImport d
      = ([{ d with id := b, collector_id := (Atoi a).1 }], none) := by
  unfold resourceSumologicSourceImport
  rw [h]
  rfl

theorem import_of_length_ne (d : ResourceData) (h : (Split d.id '/').length ≠ 2) :
    resourceSumologicSourceImport d
      = ([], some ("expected collector_id/source_id, got " ++ d.id)) := by
  unfold resourceSumologicSourceImport
  split
  · rename_i a b hab
    rw [hab] at h
    exact absurd rfl h
  · rfl

theorem length_two_parts (l : List String) (h : l.length = 2) : ∃ a b, l = [a, b] := by
  match l, h with
  | [a, b], _ => exact ⟨a, b, rfl⟩

/-- C1: `resourceSumologicSourceImport` returns an error exactly when the identifier, split on
`/`, does not give two parts (that is, when it does not hold exactly one `/`).  When the split
gives the two parts `a` and `b`, whatever they hold, the call returns no error and the list of
the one resource, whose identity is `b` and whose collector is the parse of `a`; on error the
returned list is empty and the message quotes the identifier. -/
theorem import_error_iff (d : ResourceData) :
    ((resourceSumologicSourceImport d).2 ≠ none ↔ (Split d.id '/').length ≠ 2)
    ∧ ((Split d.id '/').length ≠ 2 ↔ d.id.toList.count '/' ≠ 1)
    ∧ (∀ a b, Split d.id '/' = [a, b] →
        resourceSumologicSourceImport d
          = ([{ d with id := b, collector_id := (Atoi a).1 }], none))
    ∧ ((Split d.id '/').length = 2 →
        (resourceSumologicSourceImport d).2 = none
        ∧ (resourceSumologicSourceImport d).1.length = 1)
    ∧ ((resourceSumologicSourceImport d).2 ≠ none →
        resourceSumologicSourceImport d
          = ([], some ("expected collector_id/source_id, got " ++ d.id))) := by
  have key : (resourceSumologicSourceImport d).2 ≠ none ↔ (Split d.id '/').length ≠ 2 := by
    constructor
    · intro he hl
      obtain ⟨a, b, hab⟩ := length_two_parts _ hl
      rw [import_of_parts d a b hab] at he
      exact he rfl
    · intro hl
      rw [import_of_length_ne d hl]
      simp
  refine ⟨key, ?_, fun a b h => import_of_parts d a b h, ?_, ?_⟩
  · rw [Split_length]
    omega
  · intro hl
    obtain ⟨a, b, hab⟩ := length_two_parts _ hl
    rw [import_of_parts d a b hab]
    exact ⟨rfl, rfl⟩
  · intro he
    exact import_of_length_ne d (key.mp he)

/-- C1, at the identifier `x/`: two parts, the second empty and the first not a number. -/
theorem import_error_iff_witness :
    resourceSumologicSourceImport { id := "x/", name := "n", collector_id := 9 }
      = ([{ id := "", name := "n", collector_id := 0 }], none) :=
  (import_error_iff { id := "x/", name := "n", collector_id := 9 }).2.2.1 "x" "" (by decide)

theorem Split_decimal_pair (c s : Nat) :
    Split (Itoa c ++ "/" ++ Itoa s) '/' = [Itoa c, Itoa s] := by
  have h : (Itoa c ++ "/" ++ Itoa s).toList
      = Nat.toDigits 10 c ++ '/' :: Nat.toDigits 10 s := by
    show (Nat.repr c ++ "/" ++ Nat.repr s).toList = _
    simp [String.toList, String.data_append, repr_toList]
    rfl
  unfold Split
  rw [h, splitChars_append _ _ _ (slash_not_mem_toDigits c),
    splitChars_of_not_mem _ _ (slash_not_mem_toDigits s)]
  rfl

/-- C2 as stated fails: on the identifier made of the decimal text of `2^63`, a `/` and the
decimal text of `1`, the import succeeds and sets the identity to `1`, but the collector is
the largest `int`, `2^63 - 1`, and not `2^63`. -/
theorem import_collector_saturates :
    resourceSumologicSourceImport
        { id := Itoa 9223372036854775808 ++ "/" ++ Itoa 1, name := "n", collector_id := 0 }
      = ([{ id := Itoa 1, name := "n", collector_id := 9223372036854775807 }], none)
    ∧ ¬ (resourceSumologicSourceImport
        { id := Itoa 9223372036854775808 ++ "/" ++ Itoa 1, name := "n", collector_id := 0 }
      = ([{ id := Itoa 1, name := "n", collector_id := 9223372036854775808 }], none)) := by
  decide

/-- C2, amended: for all naturals `c` and `s` with `c` at most the largest Go `int`,
importing the identifier made of the decimal text of `c`, a `/` and the decimal text of `s`
succeeds and leaves the one resource with identity the decimal text of `s` and collector
`c`, every other field untouched. -/
theorem import_decimal_pair (d : ResourceData) (c s : Nat) (hc : (c : Int) ≤ maxInt)
    (hid : d.id = Itoa c ++ "/" ++ Itoa s) :
    resourceSumologicSourceImport d
      = ([{ d with id := Itoa s, collector_id := (c : Int) }], none) := by
  have hsplit : Split d.id '/' = [Itoa c, Itoa s] := by rw [hid]; exact Split_decimal_pair c s
  rw [import_of_parts d _ _ hsplit]
  have hat : Atoi (Itoa c) = ((c : Int), none) := by
    show Atoi (Nat.repr c) = _
    rw [Atoi_repr, if_neg (by omega)]
  rw [hat]

/-- C2, amended, at the identifier `12/34`. -/
theorem import_decimal_pair_witness :
    resourceSumologicSourceImport { id := "12/34", name := "n", collector_id := 0 }
      = ([{ id := "34", name := "n", collector_id := 12 }], none) :=
  (import_decimal_pair { id := "12/34", name := "n", collector_id := 0 } 12 34
    (by decide) (by decide))

/-! ## Delete -/

/-- C6: `resourceSumologicSourceDelete` issues a remote call exactly when `destroy` is true.
With `destroy` false the log is unchanged, no error is returned and the state is unchanged.
With `destroy` true the log grows by exactly one call, the `DELETE` of
`collectors/<collector_id>/sources/<id>` with both numbers printed in decimal (`<id>` being
the parse of the identity), the returned error is the one that call gave, and the state is
unchanged.  When the identity is the decimal text of a Go `int`, as every identity set by
create is, `<id>` is the identity itself. -/
theorem delete_iff_destroy (c : Client) (d : ResourceData) (log : List Call) :
    ((resourceSumologicSourceDelete c d log).log ≠ log ↔ d.destroy = true)
    ∧ (d.destroy = false →
        resourceSumologicSourceDelete c d log = { err := none, d := d, log := log })
    ∧ (d.destroy = true →
        resourceSumologicSourceDelete c d log
          = { err := c.Delete log
                ("collectors/" ++ Itoa d.collector_id ++ "/sources/" ++ Itoa (Atoi d.id).1)
              d := d
              log := log ++ [Call.delete
                ("collectors/" ++ Itoa d.collector_id ++ "/sources/" ++ Itoa (Atoi d.id).1)] })
    ∧ (∀ n : Int, minInt ≤ n → n ≤ maxInt → d.id = Itoa n →
        Itoa (Atoi d.id).1 = d.id) := by
  have hf : d.destroy = false →
      resourceSumologicSourceDelete c d log = { err := none, d := d, log := log } := by
    intro h
    simp [resourceSumologicSourceDelete, h]
  have ht : d.destroy = true →
      resourceSumologicSourceDelete c d log
        = { err := c.Delete log
              ("collectors/" ++ Itoa d.collector_id ++ "/sources/" ++ Itoa (Atoi d.id).1)
            d := d
            log := log ++ [Call.delete
              ("collectors/" ++ Itoa d.collector_id ++ "/sources/" ++ Itoa (Atoi d.id).1)] } := by
    intro h
    simp [resourceSumologicSourceDelete, h, DestroySource]
  refine ⟨?_, hf, ht, ?_⟩
  · cases h : d.destroy with
    | false => rw [hf h]; simp
    | true => rw [ht h]; simp
  · intro n hlo hhi hid
    rw [hid, Atoi_Itoa n hlo hhi]

/-- C6, on a client whose `DELETE` fails with `gone`: with `destroy` set, the one call goes
to `collectors/5/sources/34` and its error comes back. -/
theorem delete_iff_destroy_witness :
    resourceSumologicSourceDelete
        { Get := fun _ _ => (none, none), Delete := fun _ _ => some "gone",
          CreateCloudsyslogSource := fun _ _ _ => (0, none),
          UpdateCloudSyslogSource := fun _ _ _ => none,
          GetCloudSyslogSource := fun _ _ _ => (none, none),
          jsonUnmarshal := fun _ => (⟨[]⟩, none) }
        { id := "34", name := "n", collector_id := 5 } []
      = { err := some "gone", d := { id := "34", name := "n", collector_id := 5 },
          log := [Call.delete "collectors/5/sources/34"] } :=
  (delete_iff_destroy _ { id := "34", name := "n", collector_id := 5 } []).2.2.1 (by decide)

/-! ## The mapping layer -/

theorem defaultDateFormatsLoop_eq_some (l : List (Option DateFormatBlock)) :
    ∀ (acc r : List DefaultDateFormat),
    defaultDateFormatsLoop l acc = some r
      ↔ ∃ recs : List DefaultDateFormat, r = acc ++ recs
          ∧ l = recs.map (fun x => some { format := x.Format, locator := x.Locator }) := by
  induction l with
  | nil =>
    intro acc r
    simp only [defaultDateFormatsLoop, Option.some.injEq]
    constructor
    · intro h
      exact ⟨[], by simp [h], rfl⟩
    · rintro ⟨recs, hr, hl⟩
      have : recs = [] := by
        cases recs with
        | nil => rfl
        | cons x xs => simp at hl
      rw [hr, this]; simp
  | cons b rest ih =>
    intro acc r
    cases b with
    | none =>
      simp only [defaultDateFormatsLoop]
      constructor
      · intro h; exact absurd h (by simp)
      · rintro ⟨recs, _, hl⟩
        cases recs with
        | nil => simp at hl
        | cons x xs => simp at hl
    | some config =>
      simp only [defaultDateFormatsLoop]
      rw [ih]
      constructor
      · rintro ⟨recs, hr, hl⟩
        refine ⟨{ Format := config.format, Locator := config.locator } :: recs, ?_, ?_⟩
        · rw [hr]; simp
        · rw [hl]; rfl
      · rintro ⟨recs, hr, hl⟩
        cases recs with
        | nil => simp at hl
        | cons x xs =>
          simp only [List.map_cons, List.cons.injEq, Option.some.injEq] at hl
          obtain ⟨hx, hxs⟩ := hl
          refine ⟨xs, ?_, hxs⟩
          rw [hr, hx]
          simp

theorem filtersLoop_eq_some (l : List (Option FilterBlock)) :
    ∀ (acc r : List Filter),
    filtersLoop l acc = some r
      ↔ ∃ recs : List Filter, r = acc ++ recs
          ∧ l = recs.map (fun x => some { name := x.Name, filter_type := x.FilterType,
                                          regexp := x.Regexp, mask := x.Mask }) := by
  induction l with
  | nil =>
    intro acc r
    simp only [filtersLoop, Option.some.injEq]
    constructor
    · intro h
      exact ⟨[], by simp [h], rfl⟩
    · rintro ⟨recs, hr, hl⟩
      have : recs = [] := by
        cases recs with
        | nil => rfl
        | cons x xs => simp at hl
      rw [hr, this]; simp
  | cons b rest ih =>
    intro acc r
    cases b with
    | none =>
      simp only [filtersLoop]
      constructor
      · intro h; exact absurd h (by simp)
      · rintro ⟨recs, _, hl⟩
        cases recs with
        | nil => simp at hl
        | cons x xs => simp at hl
    | some config =>
      simp only [filtersLoop]
      rw [ih]
      constructor
      · rintro ⟨recs, hr, hl⟩
        refine ⟨{ Name := config.name, FilterType := config.filter_type,
                  Regexp := config.regexp, Mask := config.mask } :: recs, ?_, ?_⟩
        · rw [hr]; simp
        · rw [hl]; rfl
      · rintro ⟨recs, hr, hl⟩
        cases recs with
        | nil => simp at hl
        | cons x xs =>
          simp only [List.map_cons, List.cons.injEq, Option.some.injEq] at hl
          obtain ⟨hx, hxs⟩ := hl
          refine ⟨xs, ?_, hxs⟩
          rw [hr, hx]
          simp

/-- Whenever `getDefaultDateFormats` returns, the blocks of the state are exactly the blocks
of the returned records, in order: same length, position by position the same fields. -/
theorem getDefaultDateFormats_eq_some (d : ResourceData) (r : List DefaultDateFormat) :
    getDefaultDateFormats d = some r
      ↔ d.default_date_formats
          = r.map (fun x => some { format := x.Format, locator := x.Locator }) := by
  unfold getDefaultDateFormats
  rw [defaultDateFormatsLoop_eq_some]
  constructor
  · rintro ⟨recs, hr, hl⟩
    rw [hl, hr]; simp
  · intro h
    exact ⟨r, by simp, h⟩

/-- Whenever `getFilters` returns, the blocks of the state are exactly the blocks of the
returned records, in order. -/
theorem getFilters_eq_some (d : ResourceData) (r : List Filter) :
    getFilters d = some r
      ↔ d.filters
          = r.map (fun x => some { name := x.Name, filter_type := x.FilterType,
                                   regexp := x.Regexp, mask := x.Mask }) := by
  unfold getFilters
  rw [filtersLoop_eq_some]
  constructor
  · rintro ⟨recs, hr, hl⟩
    rw [hl, hr]; simp
  · intro h
    exact ⟨r, by simp, h⟩

/-- Each of the two list readers panics exactly when its list holds a `nil` block. -/
theorem getDefaultDateFormats_eq_none (d : ResourceData) :
    getDefaultDateFormats d = none ↔ none ∈ d.default_date_formats := by
  unfold getDefaultDateFormats
  generalize ([] : List DefaultDateFormat) = acc
  induction d.default_date_formats generalizing acc with
  | nil => simp [defaultDateFormatsLoop]
  | cons b rest ih =>
    cases b with
    | none => simp [defaultDateFormatsLoop]
    | some config => simp [defaultDateFormatsLoop, ih]

theorem getFilters_eq_none (d : ResourceData) :
    getFilters d = none ↔ none ∈ d.filters := by
  unfold getFilters
  generalize ([] : List Filter) = acc
  induction d.filters generalizing acc with
  | nil => simp [filtersLoop]
  | cons b rest ih =>
    cases b with
    | none => simp [filtersLoop]
    | some config => simp [filtersLoop, ih]

/-- C8, a defect of the code: on a state whose `default_date_formats` holds a block with a
format and a locator followed by a block all of whose values are empty, which `d.Get` hands
out as `nil`, `getDefaultDateFormats` does not return a list of length two: the unchecked
assertion of line 261 panics. -/
theorem getDefaultDateFormats_panics :
    getDefaultDateFormats
        { name := "n", collector_id := 5,
          default_date_formats := [some ⟨"yyyy-MM-dd", "time"⟩, none] } = none := by
  decide

/-- Whenever `resourceToSource` returns, writing the record back with
`resourceSumologicSourceRead` leaves the state as it was. -/
theorem read_resourceToSource_of_some (d : ResourceData) (source : Source)
    (h : resourceToSource d = some source) : resourceSumologicSourceRead d source = d := by
  unfold resourceToSource at h
  cases hd : getDefaultDateFormats d with
  | none => simp [hd] at h
  | some dfs =>
    cases hf : getFilters d with
    | none => simp [hd, hf] at h
    | some fs =>
      simp only [hd, hf, Option.some.injEq] at h
      have h1 : setRecordList d.default_date_formats dfs = d.default_date_formats := by
        have := (getDefaultDateFormats_eq_some d dfs).mp hd
        cases dfs with
        | nil => rw [this]; rfl
        | cons x xs => rfl
      have h2 : setRecordList d.filters fs = d.filters := by
        have := (getFilters_eq_some d fs).mp hf
        cases fs with
        | nil => rw [this]; rfl
        | cons x xs => rfl
      rw [← h]
      simp only [resourceSumologicSourceRead, h1, h2]

/-- C7, a defect of the code: on a state whose one `default_date_formats` block has only
empty values, which `d.Get` hands out as `nil`, `resourceToSource` panics at line 261, so
`resourceSumologicSourceRead(d, resourceToSource(d))` leaves no state at all. -/
theorem resourceToSource_panics :
    (resourceToSource { name := "n", collector_id := 5, default_date_formats := [none] }).map
        (resourceSumologicSourceRead
          { name := "n", collector_id := 5, default_date_formats := [none] })
      = none := by
  decide

/-! ## Filter validation -/

theorem stringInSliceLoop_iff (v : String) (valid : List String) :
    stringInSliceLoop false v valid = true ↔ v ∈ valid := by
  induction valid with
  | nil => simp [stringInSliceLoop]
  | cons str rest ih =>
    unfold stringInSliceLoop
    by_cases h : v = str
    · simp [h]
    · simp [h, ih]

/-- C9: the validator on `filter_type` reports no error exactly for the five strings
`Exclude`, `Include`, `Hash`, `Mask`, `Forward`, compared case-sensitively; for every other
string it reports exactly one error; it never reports a warning. -/
theorem filterType_accepts_iff (v k : String) :
    ((filterTypeValidateFunc v k).2 = []
      ↔ v ∈ ["Exclude", "Include", "Hash", "Mask", "Forward"])
    ∧ (v ∉ ["Exclude", "Include", "Hash", "Mask", "Forward"] →
        (filterTypeValidateFunc v k).2.length = 1)
    ∧ (filterTypeValidateFunc v k).1 = [] := by
  unfold filterTypeValidateFunc StringInSlice
  by_cases h : v ∈ ["Exclude", "Include", "Hash", "Mask", "Forward"]
  · have hl := (stringInSliceLoop_iff v _).mpr h
    rw [if_pos hl]
    exact ⟨⟨fun _ => h, fun _ => rfl⟩, fun hn => absurd h hn, rfl⟩
  · have hl :
        ¬ stringInSliceLoop false v ["Exclude", "Include", "Hash", "Mask", "Forward"] = true :=
      fun e => h ((stringInSliceLoop_iff v _).mp e)
    rw [if_neg hl]
    exact ⟨⟨fun e => absurd e (by simp), fun e => absurd e h⟩, fun _ => rfl, rfl⟩

/-- C9, at a string that differs from an accepted one only by case: `exclude` is rejected
with the one error. -/
theorem filterType_accepts_iff_witness :
    (filterTypeValidateFunc "exclude" "filter_type").2.length = 1 :=
  (filterType_accepts_iff "exclude" "filter_type").2.1 (by decide)

/-! ## Lookup by name -/

theorem firstNamed_append (sourceName : String) (pre post : List Source) (s : Source)
    (hpre : ∀ x ∈ pre, x.Name ≠ sourceName) (hs : s.Name = sourceName) :
    firstNamed sourceName (pre ++ s :: post) = some s := by
  induction pre with
  | nil => simp [firstNamed, hs]
  | cons x xs ih =>
    have hx : x.Name ≠ sourceName := hpre x (by simp)
    have hxs : ∀ y ∈ xs, y.Name ≠ sourceName := fun y hy => hpre y (List.mem_cons_of_mem _ hy)
    rw [List.cons_append, firstNamed, if_neg hx, ih hxs]

theorem firstNamed_none (sourceName : String) (l : List Source)
    (h : ∀ x ∈ l, x.Name ≠ sourceName) : firstNamed sourceName l = none := by
  induction l with
  | nil => rfl
  | cons x xs ih =>
    have hx : x.Name ≠ sourceName := h x (by simp)
    rw [firstNamed, if_neg hx, ih (fun y hy => h y (List.mem_cons_of_mem _ hy))]

theorem GetSourceName_of_list (c : Client) (log : List Call) (collectorID : Int)
    (sourceName : String) (data : Bytes) (response : SourceList)
    (hget : c.Get log ("collectors/" ++ Itoa collectorID ++ "/sources") = (some data, none))
    (hjson : c.jsonUnmarshal data = (response, none)) :
    GetSourceName c log collectorID sourceName
      = ((firstNamed sourceName response.Sources, none),
         log ++ [Call.get ("collectors/" ++ Itoa collectorID ++ "/sources")]) := by
  simp only [GetSourceName, hget, hjson]

/-- C4: when the `GET` of the collector's source list gives a body and the body deserializes
to `response`, `GetSourceName` issues that one call and returns no error; it returns the
source `s` whenever `s` has the given name and no source listed before `s` has it (so with
several sources of that name, the earliest), and it returns no source when no listed source
has the name. -/
theorem GetSourceName_first_match (c : Client) (log : List Call) (collectorID : Int)
    (sourceName : String) (data : Bytes) (response : SourceList)
    (hget : c.Get log ("collectors/" ++ Itoa collectorID ++ "/sources") = (some data, none))
    (hjson : c.jsonUnmarshal data = (response, none)) :
    (GetSourceName c log collectorID sourceName).1.2 = none
    ∧ (GetSourceName c log collectorID sourceName).2
        = log ++ [Call.get ("collectors/" ++ Itoa collectorID ++ "/sources")]
    ∧ (∀ pre s post, response.Sources = pre ++ s :: post →
        (∀ x ∈ pre, x.Name ≠ sourceName) → s.Name = sourceName →
        (GetSourceName c log collectorID sourceName).1 = (some s, none))
    ∧ ((∀ x ∈ response.Sources, x.Name ≠ sourceName) →
        (GetSourceName c log collectorID sourceName).1 = (none, none)) := by
  rw [GetSourceName_of_list c log collectorID sourceName data response hget hjson]
  refine ⟨rfl, rfl, ?_, ?_⟩
  · intro pre s post hsplit hpre hs
    simp only [hsplit, firstNamed_append sourceName pre post s hpre hs]
  · intro hnone
    simp only [firstNamed_none sourceName _ hnone]

/-- C4, on a list with two sources named `X`: the earlier one, of identity 7, is returned. -/
theorem GetSourceName_first_match_witness :
    (GetSourceName listingClient [] 5 "X").1 = (some { ID := 7, Name := "X" }, none) :=
  (GetSourceName_first_match listingClient [] 5 "X" [1]
    ⟨[{ ID := 3, Name := "W" }, { ID := 7, Name := "X" }, { ID := 9, Name := "X" }]⟩
    rfl rfl).2.2.1 [{ ID := 3, Name := "W" }] { ID := 7, Name := "X" } [{ ID := 9, Name := "X" }]
    rfl (by decide) rfl

/-! ## Read -/

/-- C5: when `GetCloudSyslogSource` returns no source and no error,
`resourceSumologicCloudSyslogSourceRead` returns no error and the state it leaves is the one
it was given with the identity set to the empty string, every other field as before; the one
call issued is that accessor's. -/
theorem read_not_found (c : Client) (d : ResourceData) (log : List Call)
    (h : c.GetCloudSyslogSource log d.collector_id (Atoi d.id).1 = (none, none)) :
    resourceSumologicCloudSyslogSourceRead c d log
      = { err := none
          d := { d with id := "" }
          log := log ++ [Call.getCloudSyslogSource d.collector_id (Atoi d.id).1] } := by
  simp only [resourceSumologicCloudSyslogSourceRead, h, ResourceData.SetId]

/-- C5, on a state of identity `34` with a description and a filter: only the identity is
cleared. -/
theorem read_not_found_witness :
    resourceSumologicCloudSyslogSourceRead listingClient
        { id := "34", name := "n", collector_id := 5, description := "kept",
          filters := [some ⟨"f", "Mask", "a+", "#"⟩], token := "t" } []
      = { err := none
          d := { id := "", name := "n", collector_id := 5, description := "kept",
                 filters := [some ⟨"f", "Mask", "a+", "#"⟩], token := "t" }
          log := [Call.getCloudSyslogSource 5 34] } :=
  read_not_found listingClient
    { id := "34", name := "n", collector_id := 5, description := "kept",
      filters := [some ⟨"f", "Mask", "a+", "#"⟩], token := "t" } [] rfl

/-! ## Create -/

/-- The create operation in terms of its three steps. -/
theorem create_steps (c : Client) (d : ResourceData) (log : List Call) :
    resourceSumologicCloudSyslogSourceCreate c d log
      = match (createLookup c d log).err with
        | some _ => some (createLookup c d log)
        | none =>
          match createIfAbsent c (createLookup c d log).d (createLookup c d log).log with
          | none => none
          | some a =>
            match a.err with
            | some _ => some a
            | none => some (resourceSumologicCloudSyslogSourceRead c a.d a.log) := by
  unfold resourceSumologicCloudSyslogSourceCreate
  rcases hL : createLookup c d log with ⟨e1, d1, l1⟩
  cases e1 with
  | some e => rfl
  | none =>
    simp only []
    cases hA : createIfAbsent c d1 l1 with
    | none => rfl
    | some a =>
      rcases a with ⟨e2, d2, l2⟩
      cases e2 with
      | some e => rfl
      | none => rfl

theorem createLookup_err (c : Client) (d : ResourceData) (log : List Call) (e : Error)
    (h : (createLookup c d log).err = some e) :
    d.lookup_by_name = true
    ∧ (GetSourceName c log d.collector_id d.name).1.2 = some e
    ∧ (createLookup c d log).d = d := by
  unfold createLookup at h ⊢
  cases hl : d.lookup_by_name with
  | false => simp [hl] at h
  | true =>
    simp only [hl, if_true] at h ⊢
    rcases hg : GetSourceName c log d.collector_id d.name with ⟨⟨src, ge⟩, l1⟩
    rw [hg] at h
    cases src <;> cases ge <;> simp at h ⊢ <;> exact h

theorem createLookup_ok (c : Client) (d : ResourceData) (log : List Call)
    (h : (createLookup c d log).err = none) :
    (createLookup c d log).d = d
    ∨ ((createLookup c d log).d.id ≠ ""
        ∧ (createLookup c d log).d = d.SetId (createLookup c d log).d.id) := by
  unfold createLookup at h ⊢
  cases hl : d.lookup_by_name with
  | false => left; simp
  | true =>
    simp only [hl, if_true] at h ⊢
    rcases hg : GetSourceName c log d.collector_id d.name with ⟨⟨src, ge⟩, l1⟩
    rw [hg] at h
    cases ge with
    | some e1 => simp at h
    | none =>
      cases src with
      | none => left; rfl
      | some s =>
        right
        exact ⟨Itoa_ne_empty s.ID, rfl⟩

theorem createIfAbsent_err (c : Client) (d : ResourceData) (log : List Call) (a : Outcome)
    (e : Error) (h : createIfAbsent c d log = some a) (he : a.err = some e) :
    d.id = ""
    ∧ (∃ source, resourceToCloudSyslogSource d = some source
        ∧ (c.CreateCloudsyslogSource log source d.collector_id).2 = some e)
    ∧ a.d = d := by
  unfold createIfAbsent at h
  by_cases hid : d.id = ""
  · rw [if_pos hid] at h
    cases hs : resourceToCloudSyslogSource d with
    | none => simp [hs] at h
    | some source =>
      simp only [hs] at h
      rcases hc : c.CreateCloudsyslogSource log source d.collector_id with ⟨n, ce⟩
      rw [hc] at h
      cases ce with
      | some e1 =>
        simp only [Option.some.injEq] at h
        subst h
        simp only [Option.some.injEq] at he
        subst he
        exact ⟨hid, ⟨source, rfl, by rw [hc]⟩, rfl⟩
      | none =>
        simp only [Option.some.injEq] at h
        subst h
        simp at he
  · rw [if_neg hid] at h
    simp only [Option.some.injEq] at h
    subst h
    simp at he

theorem createIfAbsent_ok (c : Client) (d : ResourceData) (log : List Call) (a : Outcome)
    (h : createIfAbsent c d log = some a) (he : a.err = none) : a.d = d.SetId a.d.id := by
  unfold createIfAbsent at h
  by_cases hid : d.id = ""
  · rw [if_pos hid] at h
    cases hs : resourceToCloudSyslogSource d with
    | none => simp [hs] at h
    | some source =>
      simp only [hs] at h
      rcases hc : c.CreateCloudsyslogSource log source d.collector_id with ⟨n, ce⟩
      rw [hc] at h
      cases ce with
      | some e1 =>
        simp only [Option.some.injEq] at h
        subst h
        simp at he
      | none =>
        simp only [Option.some.injEq] at h
        subst h
        rfl
  · rw [if_neg hid] at h
    simp only [Option.some.injEq] at h
    subst h
    rfl

theorem createIfAbsent_of_id (c : Client) (d : ResourceData) (log : List Call)
    (h : d.id ≠ "") : createIfAbsent c d log = some { err := none, d := d, log := log } := by
  simp [createIfAbsent, h]

theorem read_err (c : Client) (d : ResourceData) (log : List Call) (e : Error)
    (h : (resourceSumologicCloudSyslogSourceRead c d log).err = some e) :
    (c.GetCloudSyslogSource log d.collector_id (Atoi d.id).1).2 = some e
    ∧ (resourceSumologicCloudSyslogSourceRead c d log).d = d := by
  simp only [resourceSumologicCloudSyslogSourceRead] at h ⊢
  rcases hg : c.GetCloudSyslogSource log d.collector_id (Atoi d.id).1 with ⟨src, ge⟩
  rw [hg] at h
  cases src <;> cases ge <;> simp at h ⊢ <;> exact h

theorem SetId_SetId (d : ResourceData) (a b : String) : (d.SetId a).SetId b = d.SetId b := rfl

theorem SetId_id (d : ResourceData) : d.SetId d.id = d := rfl

theorem GetSourceName_log (c : Client) (log : List Call) (collectorID : Int)
    (sourceName : String) :
    (GetSourceName c log collectorID sourceName).2
      = log ++ [Call.get ("collectors/" ++ Itoa collectorID ++ "/sources")] := by
  simp only [GetSourceName]
  rcases hg : c.Get log ("collectors/" ++ Itoa collectorID ++ "/sources") with ⟨data, ge⟩
  cases data <;> cases ge <;> simp only []
  rcases hj : c.jsonUnmarshal _ with ⟨response, je⟩
  cases je <;> rfl

theorem createLookup_log (c : Client) (d : ResourceData) (log : List Call) :
    (createLookup c d log).log = log
    ∨ (createLookup c d log).log
        = log ++ [Call.get ("collectors/" ++ Itoa d.collector_id ++ "/sources")] := by
  unfold createLookup
  cases hl : d.lookup_by_name with
  | false => left; simp
  | true =>
    right
    simp only [if_true]
    have hlog := GetSourceName_log c log d.collector_id d.name
    rcases hg : GetSourceName c log d.collector_id d.name with ⟨⟨src, ge⟩, l1⟩
    rw [hg] at hlog
    cases src <;> cases ge <;> simpa using hlog

theorem read_log (c : Client) (d : ResourceData) (log : List Call) :
    (resourceSumologicCloudSyslogSourceRead c d log).log
      = log ++ [Call.getCloudSyslogSource d.collector_id (Atoi d.id).1] := by
  simp only [resourceSumologicCloudSyslogSourceRead]
  rcases hg : c.GetCloudSyslogSource log d.collector_id (Atoi d.id).1 with ⟨src, ge⟩
  cases src <;> cases ge <;> rfl

theorem read_id (c : Client) (d : ResourceData) (log : List Call) :
    (resourceSumologicCloudSyslogSourceRead c d log).d.id = d.id
    ∨ (c.GetCloudSyslogSource log d.collector_id (Atoi d.id).1 = (none, none)
        ∧ (resourceSumologicCloudSyslogSourceRead c d log).d.id = "") := by
  simp only [resourceSumologicCloudSyslogSourceRead]
  rcases hg : c.GetCloudSyslogSource log d.collector_id (Atoi d.id).1 with ⟨src, ge⟩
  cases src with
  | none =>
    cases ge with
    | none => right; exact ⟨rfl, rfl⟩
    | some e => left; rfl
  | some s =>
    cases ge with
    | none => left; rfl
    | some e => left; rfl

theorem createLookup_found (c : Client) (d : ResourceData) (log : List Call) (data : Bytes)
    (response : SourceList) (pre post : List Source) (s : Source)
    (hl : d.lookup_by_name = true)
    (hget : c.Get log ("collectors/" ++ Itoa d.collector_id ++ "/sources") = (some data, none))
    (hjson : c.jsonUnmarshal data = (response, none))
    (hsplit : response.Sources = pre ++ s :: post)
    (hpre : ∀ x ∈ pre, x.Name ≠ d.name) (hs : s.Name = d.name) :
    createLookup c d log
      = { err := none, d := d.SetId (Itoa s.ID)
          log := log ++ [Call.get ("collectors/" ++ Itoa d.collector_id ++ "/sources")] } := by
  unfold createLookup
  rw [if_pos hl, GetSourceName_of_list c log d.collector_id d.name data response hget hjson,
    hsplit, firstNamed_append d.name pre post s hpre hs]

/-- C3 as stated fails: the collector lists a source named `X` (the first one has the
identity 7), `lookup_by_name` is set and the identity is empty, and no create call is
issued, yet the operation returns with the empty identity and not with `7`, because the read
that ends it finds the source absent and clears the identity. -/
theorem create_adopted_identity_cleared :
    (GetSourceName listingClient [] 5 "X").1 = (some { ID := 7, Name := "X" }, none)
    ∧ resourceSumologicCloudSyslogSourceCreate listingClient
          { name := "X", collector_id := 5, lookup_by_name := true } []
        = some { err := none
                 d := { id := "", name := "X", collector_id := 5, lookup_by_name := true }
                 log := [Call.get "collectors/5/sources", Call.getCloudSyslogSource 5 7] }
    ∧ (resourceSumologicCloudSyslogSourceCreate listingClient
          { name := "X", collector_id := 5, lookup_by_name := true } []).map
          (fun o => o.d.id) ≠ some (Itoa 7) := by
  decide

/-- C3, amended: with `lookup_by_name` set and an empty identity, when the collector's
source list is fetched and deserialized and `s` is the first listed source with the
resource's name, the lookup step sets the identity to the decimal text of `s.ID`; the create
operation then returns what the read of that state returns, the calls it issues are the
`GET` of the list and the read's accessor call and no `CreateCloudsyslogSource`; the identity
it returns with is that text, unless the read found the source absent and cleared it.  And
for every state and client: a `CreateCloudsyslogSource` call among the calls the operation
issues means that the lookup step gave no error and left the identity empty. -/
theorem create_lookup_by_name (c : Client) (d : ResourceData) (log : List Call) :
    (∀ (data : Bytes) (response : SourceList) (pre post : List Source) (s : Source),
        d.lookup_by_name = true → d.id = "" →
        c.Get log ("collectors/" ++ Itoa d.collector_id ++ "/sources") = (some data, none) →
        c.jsonUnmarshal data = (response, none) →
        response.Sources = pre ++ s :: post →
        (∀ x ∈ pre, x.Name ≠ d.name) → s.Name = d.name →
        createLookup c d log
          = { err := none, d := d.SetId (Itoa s.ID)
              log := log ++ [Call.get ("collectors/" ++ Itoa d.collector_id ++ "/sources")] }
        ∧ ∃ o, resourceSumologicCloudSyslogSourceCreate c d log = some o
          ∧ o = resourceSumologicCloudSyslogSourceRead c (d.SetId (Itoa s.ID))
              (log ++ [Call.get ("collectors/" ++ Itoa d.collector_id ++ "/sources")])
          ∧ o.log
            = log ++ [Call.get ("collectors/" ++ Itoa d.collector_id ++ "/sources"),
                      Call.getCloudSyslogSource d.collector_id (Atoi (Itoa s.ID)).1]
          ∧ (o.d.id = Itoa s.ID
              ∨ (c.GetCloudSyslogSource
                    (log ++ [Call.get ("collectors/" ++ Itoa d.collector_id ++ "/sources")])
                    d.collector_id (Atoi (Itoa s.ID)).1 = (none, none)
                  ∧ o.d.id = "")))
    ∧ (∀ o, resourceSumologicCloudSyslogSourceCreate c d log = some o →
        ∀ call ∈ o.log.drop log.length, call.isCreate = true →
        (createLookup c d log).err = none ∧ (createLookup c d log).d.id = "") := by
  constructor
  · intro data response pre post s hl _ hget hjson hsplit hpre hs
    have hL := createLookup_found c d log data response pre post s hl hget hjson hsplit hpre hs
    have hne : (d.SetId (Itoa s.ID)).id ≠ "" := Itoa_ne_empty s.ID
    have hC : resourceSumologicCloudSyslogSourceCreate c d log
        = some (resourceSumologicCloudSyslogSourceRead c (d.SetId (Itoa s.ID))
            (log ++ [Call.get ("collectors/" ++ Itoa d.collector_id ++ "/sources")])) := by
      rw [create_steps, hL]
      simp only [createIfAbsent_of_id c _ _ hne]
    refine ⟨hL, _, hC, rfl, ?_, ?_⟩
    · rw [read_log]
      simp [ResourceData.SetId]
    · exact read_id c (d.SetId (Itoa s.ID)) _
  · intro o ho call hmem hcreate
    rw [create_steps] at ho
    cases hLe : (createLookup c d log).err with
    | some e =>
      exfalso
      rw [hLe] at ho
      simp only [Option.some.injEq] at ho
      subst ho
      rcases createLookup_log c d log with hlog | hlog
      · rw [hlog] at hmem
        simp at hmem
      · rw [hlog] at hmem
        simp at hmem
        rw [hmem] at hcreate
        simp [Call.isCreate] at hcreate
    | none =>
      refine ⟨rfl, ?_⟩
      by_contra hid
      rw [hLe] at ho
      simp only [createIfAbsent_of_id c _ _ hid, Option.some.injEq] at ho
      subst ho
      rw [read_log] at hmem
      rcases createLookup_log c d log with hlog | hlog
      · rw [hlog] at hmem
        simp at hmem
        rw [hmem] at hcreate
        simp [Call.isCreate] at hcreate
      · rw [hlog] at hmem
        simp at hmem
        rcases hmem with hmem | hmem <;>
          · rw [hmem] at hcreate
            simp [Call.isCreate] at hcreate

/-- C3, amended, on a collector that lists two sources named `X`: the lookup step adopts the
identity of the earlier one, 7, after the one `GET` of the list. -/
theorem create_lookup_by_name_witness :
    createLookup listingClient { name := "X", collector_id := 5, lookup_by_name := true } []
      = { err := none
          d := { id := "7", name := "X", collector_id := 5, lookup_by_name := true }
          log := [Call.get "collectors/5/sources"] } :=
  ((create_lookup_by_name listingClient
      { name := "X", collector_id := 5, lookup_by_name := true } []).1 [1]
    ⟨[{ ID := 3, Name := "W" }, { ID := 7, Name := "X" }, { ID := 9, Name := "X" }]⟩
    [{ ID := 3, Name := "W" }] [{ ID := 9, Name := "X" }] { ID := 7, Name := "X" }
    rfl rfl rfl rfl rfl (by decide) rfl).1

/-- C10 as stated fails: on a fresh resource (empty identity, no lookup) and a client whose
create succeeds with identity 41 and whose read fails, the create operation returns the
read's error, yet the state it leaves has the identity `41` and so differs from the state
before the call. -/
theorem create_error_changes_state :
    (resourceSumologicCloudSyslogSourceCreate failingReadClient
        { name := "n", collector_id := 5 } []).map (fun o => o.err) = some (some "timeout")
    ∧ (resourceSumologicCloudSyslogSourceCreate failingReadClient
        { name := "n", collector_id := 5 } []).map (fun o => o.d)
        = some { id := "41", name := "n", collector_id := 5 }
    ∧ (resourceSumologicCloudSyslogSourceCreate failingReadClient
        { name := "n", collector_id := 5 } []).map (fun o => o.d)
        ≠ some { name := "n", collector_id := 5 } := by
  decide

/-- C10, amended: whenever `resourceSumologicCloudSyslogSourceCreate` returns an error,
every field of the state other than the identity is as before the call, and the error is the
one the failing call gave, unchanged: either `GetSourceName` failed in the lookup step, or
`CreateCloudsyslogSource` failed (the identity being empty), and in both cases the whole
state, identity included, is as before; or the accessor call of the final read failed, and
the state is the one the lookup and create steps left, whose identity may be the adopted or
the newly created one. -/
theorem create_error_cases (c : Client) (d : ResourceData) (log : List Call) (o : Outcome)
    (e : Error) (h : resourceSumologicCloudSyslogSourceCreate c d log = some o)
    (he : o.err = some e) :
    o.d = d.SetId o.d.id
    ∧ ((d.lookup_by_name = true
          ∧ (GetSourceName c log d.collector_id d.name).1.2 = some e
          ∧ o.d = d)
      ∨ ((createLookup c d log).err = none
          ∧ d.id = ""
          ∧ (∃ source, resourceToCloudSyslogSource d = some source
              ∧ (c.CreateCloudsyslogSource (createLookup c d log).log source
                    d.collector_id).2 = some e)
          ∧ o.d = d)
      ∨ ((createLookup c d log).err = none
          ∧ ∃ a, createIfAbsent c (createLookup c d log).d (createLookup c d log).log = some a
            ∧ a.err = none
            ∧ (c.GetCloudSyslogSource a.log d.collector_id (Atoi a.d.id).1).2 = some e
            ∧ o.d = a.d)) := by
  rw [create_steps] at h
  cases hLe : (createLookup c d log).err with
  | some e1 =>
    rw [hLe] at h
    simp only [Option.some.injEq] at h
    subst h
    have he1 : e1 = e := Option.some.inj (hLe.symm.trans he)
    subst he1
    obtain ⟨hl, hg, hd⟩ := createLookup_err c d log e1 hLe
    refine ⟨?_, Or.inl ⟨hl, hg, hd⟩⟩
    rw [hd]
    exact (SetId_id d).symm
  | none =>
    rw [hLe] at h
    simp only [] at h
    have hLd := createLookup_ok c d log hLe
    cases hA : createIfAbsent c (createLookup c d log).d (createLookup c d log).log with
    | none =>
      rw [hA] at h
      simp at h
    | some a =>
      rw [hA] at h
      simp only [] at h
      cases hAe : a.err with
      | some e2 =>
        rw [hAe] at h
        simp only [Option.some.injEq] at h
        subst h
        have he2 : e2 = e := Option.some.inj (hAe.symm.trans he)
        subst he2
        obtain ⟨hid, ⟨source, hsrc, hc⟩, hd⟩ := createIfAbsent_err c _ _ a e2 hA hAe
        have hLd1 : (createLookup c d log).d = d := by
          rcases hLd with h1 | ⟨h1, _⟩
          · exact h1
          · exact absurd hid h1
        have hd1 : a.d = d := hd.trans hLd1
        refine ⟨?_, Or.inr (Or.inl ⟨rfl, hLd1 ▸ hid, ⟨source, ?_, ?_⟩, hd1⟩)⟩
        · rw [hd1]
          exact (SetId_id d).symm
        · rw [← hsrc, hLd1]
        · rw [← hc, hLd1]
      | none =>
        rw [hAe] at h
        simp only [Option.some.injEq] at h
        subst h
        obtain ⟨hg, hd⟩ := read_err c _ _ e he
        have hAd := createIfAbsent_ok c _ _ a hA hAe
        have hAd1 : a.d = d.SetId a.d.id := by
          rcases hLd with h1 | ⟨_, h1⟩
          · exact hAd.trans (congrArg (fun x => ResourceData.SetId x _) h1)
          · exact hAd.trans ((congrArg (fun x => ResourceData.SetId x _) h1).trans
              (SetId_SetId _ _ _))
        have hcol : a.d.collector_id = d.collector_id := by
          have hcol1 := congrArg ResourceData.collector_id hAd1
          exact hcol1
        rw [hcol] at hg
        refine ⟨?_, Or.inr (Or.inr ⟨rfl, a, rfl, hAe, hg, hd⟩)⟩
        rw [hd]
        exact hAd1

/-- C10, amended, on the client whose read fails after a successful create: the error is the
read's and the state is the fresh one with the identity `41`. -/
theorem create_error_cases_witness :
    resourceSumologicCloudSyslogSourceCreate failingReadClient
        { name := "n", collector_id := 5 } []
      = some
          { err := some "timeout"
            d := { id := "41", name := "n", collector_id := 5 }
            log := [Call.createCloudsyslogSource
                      { Source := { SourceType := "Cloudsyslog", Name := "n",
                                    TimeZone := "Etc/UTC", AutomaticDateParsing := true,
                                    MultilineProcessingEnabled := true,
                                    UseAutolineMatching := true } } 5,
                    Call.getCloudSyslogSource 5 41] }
    ∧ ({ id := "41", name := "n", collector_id := 5 } : ResourceData)
      = ResourceData.SetId { name := "n", collector_id := 5 } "41" :=
  ⟨by decide,
   (create_error_cases failingReadClient { name := "n", collector_id := 5 } []
      { err := some "timeout"
        d := { id := "41", name := "n", collector_id := 5 }
        log := [Call.createCloudsyslogSource
                  { Source := { SourceType := "Cloudsyslog", Name := "n",
                                TimeZone := "Etc/UTC", AutomaticDateParsing := true,
                                MultilineProcessingEnabled := true,
                                UseAutolineMatching := true } } 5,
                Call.getCloudSyslogSource 5 41] }
      "timeout" (by decide) rfl).1⟩

end Sumologic
